import Mathlib

/-!
Verification of the fs-client upload core of the `mc` repository
(`pkg/client/fs`: `Put`, `BlockingWriteCloser`, `NewBlockingWriteCloser`).

The Go source spawns one upload worker goroutine per `Put` call.  The worker
validates the request, creates the destination file, copies the declared
number of bytes from the consumer end of an `io.Pipe`, and signals the
`BlockingWriteCloser` handle exactly once via `Release`.  We embed the code
shallowly: bytes are `Nat`, the filesystem is an association list from paths
to byte lists, the `sync.WaitGroup` latch is an integer counter whose
underflow is a Go panic, and the worker's single linear control flow is a
pure function.  Goroutine interleaving is resolved the way the
synchronisation primitives force it to be: the caller writes its bytes
through the rendezvous pipe, calls `Close` (which closes the producer end
and then blocks on the latch), and the worker's `Release` is the event that
lets `Close` return.
-/

namespace McFs

/-- A byte.  The value range is irrelevant to the claims, so bytes are
plain naturals. -/
abbrev Byte := Nat

/-- The filesystem: an association list from paths to file contents.
We model a flat namespace of paths; directory structure does not
participate in any claim. -/
abbrev FS := List (String × List Byte)

/-- Look up a path in the filesystem. -/
def fsLookup (fs : FS) (p : String) : Option (List Byte) :=
  match fs with
  | [] => none
  | (q, v) :: rest => if q = p then some v else fsLookup rest p

/-- Set a path's contents, replacing an existing entry or appending a
fresh one. -/
def fsSet (fs : FS) (p : String) (v : List Byte) : FS :=
  match fs with
  | [] => [(p, v)]
  | (q, w) :: rest => if q = p then (q, v) :: rest else (q, w) :: fsSet rest p v

/-- The error kinds that reach the caller of this core.  `iodine.New(err, nil)`
wraps an error with a call trace but preserves its kind (and maps `nil` to
`nil`), so we model it as the identity on error kinds.
`client.InvalidArgument` and `client.ObjectExists` come from the client
error taxonomy; `createFailure` stands for any other `os.Create` error and
`copyEOF` for the `io.EOF` that `io.CopyN` returns on a short read. -/
inductive ClientError
  | invalidArgument
  | objectExists (bucket object : String)
  | createFailure
  | copyEOF
  deriving DecidableEq, Repr

/-- The Go runtime panic raised by `sync.WaitGroup` when its counter is
driven below zero. -/
inductive GoPanic
  | negativeWaitGroup
  deriving DecidableEq, Repr

/-- State of a `BlockingWriteCloser`: the terminal error slot `err` and the
`sync.WaitGroup` counter `wg` of its release latch.  (The wrapped producer
end of the pipe carries no state our claims need.) -/
structure BWCState where
  err : Option ClientError
  wg : Int
  deriving DecidableEq, Repr

/-- `NewBlockingWriteCloser`: fresh error slot, `WaitGroup` counter set to 1
by `wg.Add(1)`. -/
def NewBlockingWriteCloser : BWCState := ⟨none, 1⟩

/-- `sync.WaitGroup.Done`, i.e. `Add(-1)`: decrements the counter and
panics (`sync: negative WaitGroup counter`) when the counter goes
negative. -/
def wgDone (c : Int) : Except GoPanic Int :=
  if c - 1 < 0 then .error .negativeWaitGroup else .ok (c - 1)

/-- `BlockingWriteCloser.Release(err)`: `b.release.Done()`, then store `err`
in the error slot when it is non-nil. -/
def Release (b : BWCState) (e : Option ClientError) : Except GoPanic BWCState := do
  let c ← wgDone b.wg
  .ok { err := if e.isSome then e else b.err, wg := c }

/-- `BlockingWriteCloser.Close()`: close the producer end of the pipe and
capture a non-nil error in the slot, then `b.release.Wait()` until the
worker's `Release(workerErr)` has run, then return the slot.
`pipeCloseErr` is the value returned by `b.w.Close()` (always `nil` for an
`io.PipeWriter`, but we keep it general as the code does), and `workerErr`
is the argument of the `Release` call that unblocks the wait. -/
def Close (b : BWCState) (pipeCloseErr workerErr : Option ClientError) :
    Except GoPanic (Option ClientError) := do
  let b1 : BWCState :=
    { b with err := if pipeCloseErr.isSome then pipeCloseErr else b.err }
  let b2 ← Release b1 workerErr
  .ok b2.err

/-- `filepath.Join(bucket, object)` for the cleaned, non-empty component
names the worker reaches this call with. -/
def filepathJoin (bucket object : String) : String :=
  bucket ++ "/" ++ object

/-- `os.Create(path)` = `os.OpenFile(path, O_RDWR|O_CREATE|O_TRUNC, 0666)`:
it creates the file when absent and truncates it to empty when present.
It does not fail with an `EEXIST` error on an existing file, so
`os.IsExist(err)` is never true on this model's outcomes. -/
def osCreate (fs : FS) (path : String) : FS × Option ClientError :=
  (fsSet fs path [], none)

/-- `io.CopyN(dst, src, n)`: copies exactly `n` bytes from `src` into `dst`
and returns `nil`; if `src` is exhausted (producer end closed cleanly)
before `n` bytes have been copied, the bytes that were available are
copied and `io.EOF` is returned.  `avail` is the byte sequence the
producer hands through the pipe before closing. -/
def copyN (avail : List Byte) (n : Int) : List Byte × Option ClientError :=
  if n ≤ (avail.length : Int) then (avail.take n.toNat, none)
  else (avail, some .copyEOF)

/-- One whole run of `Put` followed by the caller writing `data` through the
handle and calling `Close`: the worker from `Put`'s goroutine body, with
its result observed through `Close`'s return value.  `io.PipeWriter.Close`
returns `nil`, so the error `Close` returns is exactly the worker's
`Release` argument.  Returns the final filesystem and `Close`'s error. -/
def putRun (fs0 : FS) (bucket object : String) (size : Int) (data : List Byte) :
    FS × Option ClientError :=
  if bucket = "" ∨ object = "" then
    (fs0, some .invalidArgument)
  else
    let objectPath := filepathJoin bucket object
    if size < 0 then
      (fs0, some .invalidArgument)
    else
      match osCreate fs0 objectPath with
      | (_, some _) => (fs0, some .createFailure)
      | (fs1, none) =>
        match copyN data size with
        | (copied, none) => (fsSet fs1 objectPath copied, none)
        | (copied, some e) => (fsSet fs1 objectPath copied, some e)

/-- The two signalling actions of the worker, in the order they are
executed: `closeReader e` is `r.CloseWithError(e)` when `e` is non-nil and
the clean `r.Close()` when `e` is `nil`; `release e` is
`blockingWriter.Release(e)`. -/
inductive WEvent
  | closeReader (e : Option ClientError)
  | release (e : Option ClientError)
  deriving DecidableEq, Repr

/-- Outcome oracle for the `os.Create` call, covering every branch the
worker's code distinguishes: success, an error with `os.IsExist(err)`
true, and any other error. -/
inductive CreateOutcome
  | ok
  | existsErr
  | otherErr
  deriving DecidableEq, Repr

/-- The worker goroutine of `Put` as the sequence of signalling events it
performs, with the environment-determined outcomes of `os.Create` and
`io.CopyN` supplied as oracles (`copyErr = none` means the copy
succeeded).  Every exit path of the goroutine body is one branch here. -/
def workerTrace (bucket object : String) (size : Int)
    (createOut : CreateOutcome) (copyErr : Option ClientError) : List WEvent :=
  if bucket = "" ∨ object = "" then
    [.closeReader (some .invalidArgument), .release (some .invalidArgument)]
  else if size < 0 then
    [.closeReader (some .invalidArgument), .release (some .invalidArgument)]
  else
    match createOut with
    | .existsErr =>
      [.closeReader (some (.objectExists bucket object)),
       .release (some (.objectExists bucket object))]
    | .otherErr =>
      [.closeReader (some .createFailure), .release (some .createFailure)]
    | .ok =>
      match copyErr with
      | some e => [.closeReader (some e), .release (some e)]
      | none => [.release none, .closeReader none]

/-- Whether an event is a `Release` call. -/
def WEvent.isRelease : WEvent → Bool
  | .release _ => true
  | _ => false

/-- Whether an event is a close of the consumer (read) end of the pipe. -/
def WEvent.isCloseReader : WEvent → Bool
  | .closeReader _ => true
  | _ => false

/-- The synchronous part of `Put` itself: build the pipe, wrap its producer
end in a fresh `BlockingWriteCloser`, spawn the worker, and return the
handle with a `nil` error.  The returned pair is (handle state, error). -/
def Put (_bucket _object _md5HexString : String) (_size : Int) :
    BWCState × Option ClientError :=
  (NewBlockingWriteCloser, none)

/-- State of the handoff channel (`io.Pipe`).  Modelled from the Go
standard library contract of `io.Pipe`: a synchronous, unbuffered pipe in
which each `Write` blocks until one or more `Read`s have fully consumed
the written data.  `pending` holds the not-yet-consumed bytes of the
in-flight `Write` call; `writing` records whether a `Write` call is in
progress. -/
structure PipeState where
  pending : List Byte
  writing : Bool
  deriving DecidableEq, Repr

/-- Observable events of a producer `Write` call interleaved with consumer
`Read`s: `writeCall bs` is the producer entering `Write(bs)`;
`readChunk cs` is a consumer `Read` draining the non-empty chunk `cs` from
the front of the pending bytes; `writeRet` is the producer's `Write` call
returning successfully. -/
inductive PipeEv
  | writeCall (bs : List Byte)
  | readChunk (cs : List Byte)
  | writeRet
  deriving DecidableEq, Repr

/-- One step of the rendezvous pipe: a `Write` may begin only when no write
is in flight; a `Read` drains a non-empty prefix of the pending bytes; a
`Write` returns successfully only once every byte it offered has been
consumed (the rendezvous contract: no internal buffering survives a
successful return). -/
def pipeStep (s : PipeState) : PipeEv → Option PipeState
  | .writeCall bs => if s.writing then none else some ⟨bs, true⟩
  | .readChunk cs =>
      if s.writing ∧ cs ≠ [] ∧ s.pending.take cs.length = cs then
        some ⟨s.pending.drop cs.length, true⟩
      else none
  | .writeRet => if s.writing ∧ s.pending = [] then some ⟨[], false⟩ else none

/-- Run the pipe over a sequence of events; `none` means the event sequence
is not a possible execution. -/
def pipeRun (s : PipeState) : List PipeEv → Option PipeState
  | [] => some s
  | e :: rest => (pipeStep s e).bind (fun s2 => pipeRun s2 rest)

/-- The bytes the consumer has drained over an event sequence. -/
def consumedBytes : List PipeEv → List Byte
  | [] => []
  | .readChunk cs :: rest => cs ++ consumedBytes rest
  | _ :: rest => consumedBytes rest

/-! ## Helper lemmas -/

theorem fsLookup_fsSet (fs : FS) (p : String) (v : List Byte) :
    fsLookup (fsSet fs p v) p = some v := by
  induction fs with
  | nil => simp [fsSet, fsLookup]
  | cons hd rest ih =>
    obtain ⟨q, w⟩ := hd
    by_cases h : q = p
    · simp [fsSet, fsLookup, h]
    · simp [fsSet, fsLookup, h, ih]

/-- Draining lemma for the pipe: starting inside a `Write` call with `p`
bytes pending, if a sequence of pure read events followed by a successful
write return is executable, the reads drained exactly `p`. -/
theorem pipeRun_reads_drain (reads : List PipeEv) (p : List Byte) (s' : PipeState)
    (hreads : ∀ e ∈ reads, ∃ cs, e = PipeEv.readChunk cs)
    (hrun : pipeRun ⟨p, true⟩ (reads ++ [.writeRet]) = some s') :
    consumedBytes reads = p := by
  induction reads generalizing p with
  | nil =>
    by_cases hp : p = []
    · simp [consumedBytes, hp]
    · simp [pipeRun, pipeStep, hp] at hrun
  | cons e rest ih =>
    obtain ⟨cs, rfl⟩ := hreads e (List.mem_cons_self e rest)
    by_cases hstep : cs ≠ [] ∧ List.take cs.length p = cs
    · have hrun2 : pipeRun ⟨p.drop cs.length, true⟩ (rest ++ [.writeRet]) = some s' := by
        simpa [pipeRun, pipeStep, hstep.1, hstep.2] using hrun
      have ihr := ih (p.drop cs.length)
        (fun e he => hreads e (List.mem_cons_of_mem _ he)) hrun2
      calc consumedBytes (PipeEv.readChunk cs :: rest)
          = cs ++ consumedBytes rest := rfl
        _ = List.take cs.length p ++ List.drop cs.length p := by
            rw [ihr, hstep.2]
        _ = p := List.take_append_drop cs.length p
    · exfalso
      rcases not_and_or.mp hstep with h1 | h2
      · have hcs : cs = [] := not_not.mp h1
        simp [pipeRun, pipeStep, hcs] at hrun
      · simp [pipeRun, pipeStep, h2] at hrun

/-! ## Claims -/

/-- C1: on every exit path of the upload worker (empty-name failure,
negative-size failure, creation failure in either flavour, copy failure,
success) the signalling trace contains exactly one `Release` call and
exactly one close of the consumer end of the pipe; on every failure path
the consumer end is closed with the encountered error before
`Release(err)`, and on the success path `Release(nil)` precedes the clean
`r.Close()`. -/
theorem put_worker_signal_discipline (bucket object : String) (size : Int)
    (createOut : CreateOutcome) (copyErr : Option ClientError) :
    ((workerTrace bucket object size createOut copyErr).filter
        WEvent.isRelease).length = 1 ∧
    ((workerTrace bucket object size createOut copyErr).filter
        WEvent.isCloseReader).length = 1 ∧
    (workerTrace bucket object size createOut copyErr =
        [.release none, .closeReader none] ∨
      ∃ e : ClientError, workerTrace bucket object size createOut copyErr =
        [.closeReader (some e), .release (some e)]) := by
  unfold workerTrace
  by_cases hbo : bucket = "" ∨ object = ""
  · simp only [hbo, if_pos]
    exact ⟨rfl, rfl, Or.inr ⟨.invalidArgument, rfl⟩⟩
  · simp only [hbo, if_neg, if_false]
    by_cases hs : size < 0
    · simp only [hs, if_pos]
      exact ⟨rfl, rfl, Or.inr ⟨.invalidArgument, rfl⟩⟩
    · simp only [hs, if_false]
      cases createOut with
      | existsErr => exact ⟨rfl, rfl, Or.inr ⟨.objectExists bucket object, rfl⟩⟩
      | otherErr => exact ⟨rfl, rfl, Or.inr ⟨.createFailure, rfl⟩⟩
      | ok =>
        cases copyErr with
        | some e => exact ⟨rfl, rfl, Or.inr ⟨e, rfl⟩⟩
        | none => exact ⟨rfl, rfl, Or.inl rfl⟩

/-- C2: `Close` on a fresh handle closes the producer end first (capturing
its error), blocks until `Release(workerErr)` has run, and then returns
the worker's error when one is present, falling back to the captured
pipe-close error otherwise; in particular `Release(nil)` never overwrites
a non-nil close error. -/
theorem close_prefers_worker_error (pipeCloseErr workerErr : Option ClientError) :
    Close NewBlockingWriteCloser pipeCloseErr workerErr =
      .ok (if workerErr.isSome then workerErr else pipeCloseErr) := by
  cases workerErr <;> cases pipeCloseErr <;> rfl

/-- C3: on a handle built by `NewBlockingWriteCloser`, a first `Release`
never panics, and a second `Release` on the resulting state aborts with
the `sync.WaitGroup` negative-counter panic. -/
theorem release_twice_panics (e1 e2 : Option ClientError) :
    (∃ b, Release NewBlockingWriteCloser e1 = .ok b) ∧
    (Release NewBlockingWriteCloser e1).bind (fun b => Release b e2) =
      .error .negativeWaitGroup := by
  cases e1 <;> exact ⟨⟨_, rfl⟩, rfl⟩

/-- C4: for non-empty names, a fresh destination identity, and a declared
size equal to the number of bytes written, the run succeeds (`Close`
returns nil) and the destination file holds exactly the written bytes in
order. -/
theorem put_success_writes_bytes (fs0 : FS) (bucket object : String)
    (data : List Byte) (hb : bucket ≠ "") (ho : object ≠ "")
    (_hfresh : fsLookup fs0 (filepathJoin bucket object) = none) :
    (putRun fs0 bucket object (data.length : Int) data).2 = none ∧
    fsLookup (putRun fs0 bucket object (data.length : Int) data).1
      (filepathJoin bucket object) = some data := by
  have hsize : ¬((data.length : Int) < 0) := by omega
  have hcopy : copyN data (data.length : Int) = (data, none) := by
    simp [copyN]
  simp [putRun, hb, ho, hsize, osCreate, hcopy, fsLookup_fsSet]

/-- C4 witness: uploading the five bytes of "hello" to the fresh identity
`b/o.txt` succeeds and stores them. -/
theorem put_success_writes_bytes_witness :
    (putRun [] "b" "o.txt" (5 : Int) [104, 101, 108, 108, 111]).2 = none ∧
    fsLookup (putRun [] "b" "o.txt" (5 : Int) [104, 101, 108, 108, 111]).1
      (filepathJoin "b" "o.txt") = some [104, 101, 108, 108, 111] :=
  put_success_writes_bytes [] "b" "o.txt" [104, 101, 108, 108, 111]
    (by decide) (by decide) rfl

/-- C5: whenever the bucket name is empty, the object name is empty, or the
declared size is negative, the run returns `InvalidArgument` from `Close`
and the filesystem is left exactly as it was: the worker checks names and
size before touching any destination resource. -/
theorem put_invalid_argument (fs0 : FS) (bucket object : String) (size : Int)
    (data : List Byte) (h : bucket = "" ∨ object = "" ∨ size < 0) :
    putRun fs0 bucket object size data = (fs0, some .invalidArgument) := by
  by_cases hbo : bucket = "" ∨ object = ""
  · simp [putRun, hbo]
  · have hs : size < 0 := by
      rcases h with h1 | h2 | h3
      · exact absurd (Or.inl h1) hbo
      · exact absurd (Or.inr h2) hbo
      · exact h3
    simp [putRun, hbo, hs]

/-- C5 witness: an empty bucket name and a negative size each yield
`InvalidArgument` with the filesystem untouched. -/
theorem put_invalid_argument_witness :
    putRun [] "" "o.txt" 5 [] = ([], some .invalidArgument) ∧
    putRun [] "b" "o.txt" (-1) [] = ([], some .invalidArgument) :=
  ⟨put_invalid_argument [] "" "o.txt" 5 [] (Or.inl rfl),
   put_invalid_argument [] "b" "o.txt" (-1) [] (Or.inr (Or.inr (by decide)))⟩

/-- C6 (code bug): with a pre-existing destination `b/o.txt` holding
`[1, 2, 3]`, uploading `[7, 8, 9]` with declared size 3 does not fail with
`ObjectExists`: `os.Create` truncates the existing file, the upload
succeeds, `Close` returns nil, and the pre-existing contents are silently
overwritten.  The code's `os.IsExist(err)` branch is unreachable because
`os.Create` opens with `O_CREATE|O_TRUNC` (no `O_EXCL`) and therefore
never returns an `EEXIST` error for an existing file. -/
theorem put_existing_destination_overwritten :
    putRun [("b/o.txt", [1, 2, 3])] "b" "o.txt" 3 [7, 8, 9] =
      ([("b/o.txt", [7, 8, 9])], none) := by decide

/-- C7: for a valid request of positive declared size, closing after
writing fewer bytes than declared makes the copy step fail with the
short-read `io.EOF`, so `Close` returns a non-nil error. -/
theorem put_short_write_errors (fs0 : FS) (bucket object : String)
    (size : Int) (data : List Byte) (hb : bucket ≠ "") (ho : object ≠ "")
    (hpos : 0 < size) (hshort : (data.length : Int) < size) :
    (putRun fs0 bucket object size data).2 = some .copyEOF := by
  have hs : ¬(size < 0) := by omega
  have hcopy : copyN data size = (data, some .copyEOF) := by
    simp [copyN, not_le.mpr hshort]
  simp [putRun, hb, ho, hs, osCreate, hcopy]

/-- C7 witness: declaring 5 bytes but writing only 3 makes `Close` return
the short-read error. -/
theorem put_short_write_errors_witness :
    0 < (5 : Int) ∧ ((3 : Nat) : Int) < 5 ∧
    (putRun [] "b" "o.txt" 5 [1, 2, 3]).2 = some .copyEOF :=
  ⟨by decide, by decide,
   put_short_write_errors [] "b" "o.txt" 5 [1, 2, 3]
     (by decide) (by decide) (by decide) (by decide)⟩

/-- C8: for every input, including invalid ones, `Put` itself returns the
fresh live handle (error slot empty, release latch armed at count 1) and a
nil error: validation failures are deferred to the handle's `Write` and
`Close`. -/
theorem put_always_returns_handle (bucket object md5HexString : String)
    (size : Int) :
    Put bucket object md5HexString size = (NewBlockingWriteCloser, none) ∧
    (Put bucket object md5HexString size).1.err = none ∧
    (Put bucket object md5HexString size).1.wg = 1 ∧
    (Put bucket object md5HexString size).2 = none :=
  ⟨rfl, rfl, rfl, rfl⟩

/-- C9: the handoff channel is rendezvous-synchronous: in any pipe
execution consisting of a `Write(bs)` call, a sequence of consumer reads,
and a successful return of that `Write`, the consumer has drained exactly
the bytes `bs` before the write returned. -/
theorem pipe_write_return_implies_handoff (bs : List Byte)
    (reads : List PipeEv) (s' : PipeState)
    (hreads : ∀ e ∈ reads, ∃ cs, e = PipeEv.readChunk cs)
    (hrun : pipeRun ⟨[], false⟩
      (.writeCall bs :: (reads ++ [.writeRet])) = some s') :
    consumedBytes reads = bs := by
  have hstep : pipeStep ⟨[], false⟩ (.writeCall bs) = some ⟨bs, true⟩ := rfl
  have hrun2 : pipeRun ⟨bs, true⟩ (reads ++ [.writeRet]) = some s' := by
    simpa [pipeRun, hstep] using hrun
  exact pipeRun_reads_drain reads bs s' hreads hrun2

/-- C9 witness: a write of `[7, 8]` that returns after two reads has handed
exactly `[7, 8]` to the consumer. -/
theorem pipe_write_return_implies_handoff_witness :
    consumedBytes [.readChunk [7], .readChunk [8]] = [7, 8] :=
  pipe_write_return_implies_handoff [7, 8]
    [.readChunk [7], .readChunk [8]] ⟨[], false⟩
    (by
      intro e he
      rcases List.mem_cons.mp he with h | h
      · exact ⟨[7], h⟩
      · rcases List.mem_cons.mp h with h2 | h2
        · exact ⟨[8], h2⟩
        · exact absurd h2 (List.not_mem_nil e))
    (by decide)

/-- C10: with valid names, declared size 0, a fresh identity, and no
writes, the run succeeds and leaves an empty destination file: the copy
step transfers zero bytes without any producer activity. -/
theorem put_zero_size_creates_empty (fs0 : FS) (bucket object : String)
    (hb : bucket ≠ "") (ho : object ≠ "")
    (_hfresh : fsLookup fs0 (filepathJoin bucket object) = none) :
    (putRun fs0 bucket object 0 []).2 = none ∧
    fsLookup (putRun fs0 bucket object 0 []).1 (filepathJoin bucket object) =
      some [] := by
  simp [putRun, hb, ho, osCreate, copyN, fsLookup_fsSet]

/-- C10 witness: a zero-byte upload to the fresh identity `b/o.txt`
succeeds and creates the empty file. -/
theorem put_zero_size_creates_empty_witness :
    (putRun [] "b" "o.txt" 0 []).2 = none ∧
    fsLookup (putRun [] "b" "o.txt" 0 []).1 (filepathJoin "b" "o.txt") =
      some [] :=
  put_zero_size_creates_empty [] "b" "o.txt" (by decide) (by decide) rfl

end McFs

